import Mathlib

/-!
Shallow embedding of the `currents_news_client` library
(`src/currents_news_client/{client,exceptions,models,types}.py`):
parameter validation, HTTP error classification, transport retry loop,
response parsing and the response mapper, together with proofs of the
specified properties.
-/

namespace CurrentsNewsClient

/-- JSON values, as produced by `response.json()` in the transport layer.
Numbers are modelled as integers (the fields the client reads are strings,
arrays and objects; numeric precision never matters to the claims). -/
inductive Json where
  | null : Json
  | bool (b : Bool) : Json
  | num (n : Int) : Json
  | str (s : String) : Json
  | arr (items : List Json) : Json
  | obj (fields : List (String × Json)) : Json

/-- Whether a JSON value is a key-value object (`isinstance(data, dict)`). -/
def Json.isObj : Json → Bool
  | .obj _ => true
  | _ => false

/-- The error kinds of the exception family in `exceptions.py`:
the base `CurrentsAPIError` (Generic-API) and its six subclasses. -/
inductive ErrorKind where
  | genericAPI
  | authentication
  | rateLimit
  | validation
  | server
  | connection
  | response
deriving DecidableEq, Repr

/-- A typed error of the `CurrentsAPIError` family, with the attributes the
constructors in `exceptions.py` set: `message`, `status_code`, and the
subclass-specific `retry_after` (RateLimit) and `field` (Validation). -/
structure CurrentsError where
  kind : ErrorKind
  message : String
  status_code : Option Nat
  retry_after : Option Int
  field : Option String
deriving DecidableEq, Repr

/-- Constructor of the base `CurrentsAPIError(message, status_code=None)`. -/
def mkCurrentsAPIError (message : String) (status_code : Option Nat) : CurrentsError :=
  ⟨.genericAPI, message, status_code, none, none⟩

/-- Constructor of `CurrentsAuthenticationError`: always `status_code=401`. -/
def mkCurrentsAuthenticationError (message : String) : CurrentsError :=
  ⟨.authentication, message, some 401, none, none⟩

/-- Constructor of `CurrentsRateLimitError`: always `status_code=429`,
carrying the optional `retry_after` hint. -/
def mkCurrentsRateLimitError (message : String) (retry_after : Option Int) : CurrentsError :=
  ⟨.rateLimit, message, some 429, retry_after, none⟩

/-- Constructor of `CurrentsValidationError`: always `status_code=400`,
carrying the optional failing `field` name. -/
def mkCurrentsValidationError (message : String) (field : Option String) : CurrentsError :=
  ⟨.validation, message, some 400, none, field⟩

/-- Constructor of `CurrentsServerError`: always `status_code=500`. -/
def mkCurrentsServerError (message : String) : CurrentsError :=
  ⟨.server, message, some 500, none, none⟩

/-- Constructor of `CurrentsConnectionError`: `status_code=None`. -/
def mkCurrentsConnectionError (message : String) : CurrentsError :=
  ⟨.connection, message, none, none, none⟩

/-- Constructor of `CurrentsResponseError`: `status_code=None`. -/
def mkCurrentsResponseError (message : String) : CurrentsError :=
  ⟨.response, message, none, none, none⟩

/-! The fixed messages of `ERROR_MESSAGES` in `types.py`. The language and
category messages carry no interpolation placeholder, so `.format(...)`
leaves them unchanged. -/

def invalid_api_key_msg : String := "Invalid API key provided"

def rate_limit_exceeded_msg : String := "API rate limit exceeded. Please try again later."

def invalid_parameters_msg : String := "Invalid request parameters provided"

def server_error_msg : String := "API server error. Please try again later."

def connection_error_msg : String := "Failed to connect to Currents API"

def invalid_response_msg : String := "Invalid response from API"

def invalid_language_msg : String :=
  "Invalid language code. Supported: en, es, fr, de, it, pt, ru, ar, hi, zh, ja, ko, th, vi"

def invalid_category_msg : String :=
  "Invalid category. Supported: world, politics, business, technology, sports, entertainment, health, science, regional, hardware, lifestyle, travel"

def limit_out_of_range_msg : String := "Limit must be between 1 and 100"

/-- Constant `MIN_LIMIT` from `types.py`. -/
def MIN_LIMIT : Int := 1

/-- Constant `MAX_LIMIT` from `types.py`. -/
def MAX_LIMIT : Int := 100

/-- The `valid_languages` list of `_ParameterValidator.validate_language`. -/
def valid_languages : List String :=
  ["en", "es", "fr", "de", "it", "pt", "ru", "ar", "hi", "zh", "ja", "ko", "th", "vi"]

/-- The `valid_categories` list of `_ParameterValidator.validate_category`. -/
def valid_categories : List String :=
  ["world", "politics", "business", "technology", "sports", "entertainment",
   "health", "science", "regional", "hardware", "lifestyle", "travel"]

/-- Embedding of `_ParameterValidator.validate_language`: raises `CurrentsValidationError`
unless the code is in the fixed 14-element list. -/
def validate_language (language : String) : Except CurrentsError Unit :=
  if language ∉ valid_languages then
    .error (mkCurrentsValidationError invalid_language_msg none)
  else
    .ok ()

/-- Embedding of `_ParameterValidator.validate_limit`: raises `CurrentsValidationError`
when `limit < MIN_LIMIT or limit > MAX_LIMIT`. -/
def validate_limit (limit : Int) : Except CurrentsError Unit :=
  if limit < MIN_LIMIT ∨ limit > MAX_LIMIT then
    .error (mkCurrentsValidationError limit_out_of_range_msg none)
  else
    .ok ()

/-- Embedding of `_ParameterValidator.validate_category`: raises `CurrentsValidationError`
unless the category is in the fixed 12-element list. -/
def validate_category (category : String) : Except CurrentsError Unit :=
  if category ∉ valid_categories then
    .error (mkCurrentsValidationError invalid_category_msg none)
  else
    .ok ()

/-- Embedding of `_ParameterValidator.validate_params`: language check, then limit check,
then — only when a category is supplied and truthy (non-empty) — the category
check. A pure function: no network access on any path. -/
def validate_params (language : String) (limit : Int) (category : Option String) :
    Except CurrentsError Unit :=
  match validate_language language with
  | .error e => .error e
  | .ok _ =>
    match validate_limit limit with
    | .error e => .error e
    | .ok _ =>
      match category with
      | some c => if c ≠ "" then validate_category c else .ok ()
      | none => .ok ()

/-! ### HTTP responses, the error classifier and response parsing -/

/-- An already-received HTTP response, as the classifier sees it:
status code, reason phrase, headers and the JSON-decoded body
(`none` models a body on which `response.json()` raises `ValueError`). -/
structure HttpResponse where
  status_code : Nat
  reason : String
  headers : List (String × String)
  body : Option Json

/-- ASCII lowercasing of one character, for case-insensitive header names. -/
def charLower (c : Char) : Char :=
  if 'A' ≤ c ∧ c ≤ 'Z' then Char.ofNat (c.toNat + 32) else c

/-- Case-insensitive string comparison over header names. -/
def strCaseEq (a b : String) : Bool :=
  a.data.map charLower == b.data.map charLower

/-- Case-insensitive header lookup, after `requests` `CaseInsensitiveDict.get`. -/
def headersGet (headers : List (String × String)) (key : String) : Option String :=
  (headers.find? (fun kv => strCaseEq kv.1 key)).map (fun kv => kv.2)

/-- Whether a character list is a valid Python integer-literal digit run:
digits, with single underscores allowed between digits. Helper for `pyInt`. -/
def digitsTailOk : List Char → Bool
  | [] => true
  | '_' :: c :: rest => c.isDigit && digitsTailOk rest
  | '_' :: [] => false
  | c :: rest => c.isDigit && digitsTailOk rest

/-- A nonempty digit run as accepted by Python `int(...)` after the sign. -/
def digitRunOk : List Char → Bool
  | [] => false
  | c :: rest => c.isDigit && digitsTailOk rest

/-- Decimal value of a digit run, ignoring underscores. -/
def digitRunVal (cs : List Char) : Nat :=
  cs.foldl (fun acc c => if c == '_' then acc else acc * 10 + (c.toNat - 48)) 0

/-- Python `int(s)` on a string: strip surrounding whitespace, optional sign,
then a digit run; `none` models the `ValueError` on anything else. -/
def pyInt (s : String) : Option Int :=
  let cs := ((s.data.dropWhile Char.isWhitespace).reverse.dropWhile Char.isWhitespace).reverse
  match cs with
  | '+' :: rest => if digitRunOk rest then some (digitRunVal rest : Int) else none
  | '-' :: rest => if digitRunOk rest then some (-(digitRunVal rest : Int)) else none
  | rest => if digitRunOk rest then some (digitRunVal rest : Int) else none

/-- Embedding of `_HTTPErrorHandler._handle_rate_limit_error`: read the `Retry-After`
header; when present (truthy) try to parse it as an integer, falling back to
`None` on failure; always raise `CurrentsRateLimitError`. -/
def handle_rate_limit_error (response : HttpResponse) : CurrentsError :=
  let retry_after_str := headersGet response.headers "Retry-After"
  let retry_after : Option Int :=
    match retry_after_str with
    | some s => if s ≠ "" then pyInt s else none
    | none => none
  mkCurrentsRateLimitError rate_limit_exceeded_msg retry_after

/-- Embedding of `_HTTPErrorHandler.handle_http_error`: classify an HTTP error status into
exactly one typed error, first match winning: 401, then 429, then 400, then
any status at least 500, else the generic `CurrentsAPIError` whose message is
built from the numeric status and the reason phrase. -/
def handle_http_error (status_code : Nat) (response : HttpResponse) : CurrentsError :=
  if status_code = 401 then
    mkCurrentsAuthenticationError invalid_api_key_msg
  else if status_code = 429 then
    handle_rate_limit_error response
  else if status_code = 400 then
    mkCurrentsValidationError invalid_parameters_msg none
  else if 500 ≤ status_code then
    mkCurrentsServerError server_error_msg
  else
    mkCurrentsAPIError ("HTTP " ++ toString status_code ++ ": " ++ response.reason) none

/-- Embedding of `_HTTPErrorHandler.parse_response_json`: return the decoded JSON body, or
raise `CurrentsResponseError` when `response.json()` raised `ValueError`. -/
def parse_response_json (response : HttpResponse) : Except CurrentsError Json :=
  match response.body with
  | some data => .ok data
  | none => .error (mkCurrentsResponseError (invalid_response_msg ++ ": Invalid JSON"))

/-- Predicate for when `raise_for_status` of `requests` raises `HTTPError` exactly for client and
server error statuses (4xx and 5xx). -/
def raise_for_status_raises (status_code : Nat) : Bool :=
  400 ≤ status_code && status_code < 600

/-- Embedding of `HTTPClient._handle_response`: classify HTTP error statuses, otherwise
parse the JSON body and insist it is a key-value object. -/
def handle_response (response : HttpResponse) : Except CurrentsError Json :=
  if raise_for_status_raises response.status_code then
    .error (handle_http_error response.status_code response)
  else
    match parse_response_json response with
    | .error e => .error e
    | .ok response_data =>
      if response_data.isObj then
        .ok response_data
      else
        .error (mkCurrentsResponseError invalid_response_msg)

/-! ### Transport: session construction and the retry loop -/

/-- Python `rstrip` with `/`: drop every trailing slash. -/
def pyRstripSlash (s : String) : String :=
  ⟨(s.data.reverse.dropWhile (fun c => c == '/')).reverse⟩

/-- The state `HTTPClient.__init__` builds: normalized base URL, the session
query parameters holding the credential, and the retry policy constants. -/
structure HTTPClientState where
  base_url : String
  session_params : List (String × String)
  max_retries : Nat
  retry_delay : Nat

/-- Embedding of `HTTPClient.__init__(api_key, base_url)`. -/
def HTTPClient_init (api_key : String) (base_url : String) : HTTPClientState :=
  ⟨pyRstripSlash base_url, [("apiKey", api_key)], 3, 1⟩

/-- The URL targeted by `HTTPClient.request`: base URL concatenated with the
relative endpoint. -/
def HTTPClientState.request_url (st : HTTPClientState) (endpoint : String) : String :=
  st.base_url ++ endpoint

/-- Outcome of one underlying `session.get` call: a transport-level failure
(`requests.exceptions.RequestException`) or a received HTTP response. -/
inductive AttemptResult where
  | failure
  | success (response : HttpResponse)

/-- Observable behaviour of one `HTTPClient.request` call: how many underlying
network calls were made, the `time.sleep` durations between attempts in order,
and the final outcome. -/
structure TransportTrace where
  calls : Nat
  sleeps : List Nat
  outcome : Except CurrentsError Json

/-- The body of the `for attempt in range(self.max_retries)` loop of
`HTTPClient.request`, with `fuel` iterations remaining and `attempt` the
current index. The fuel-0 case is the fall-through after the loop
(line 301 of `client.py`). `attempts` gives the outcome of each underlying
network call by attempt index. -/
def requestGo (attempts : Nat → AttemptResult) (retry_delay max_retries : Nat) :
    Nat → Nat → TransportTrace
  | _, 0 => ⟨0, [], .error (mkCurrentsConnectionError connection_error_msg)⟩
  | attempt, fuel + 1 =>
    match attempts attempt with
    | .success response => ⟨1, [], handle_response response⟩
    | .failure =>
      if attempt = max_retries - 1 then
        ⟨1, [], .error (mkCurrentsConnectionError connection_error_msg)⟩
      else
        let rest := requestGo attempts retry_delay max_retries (attempt + 1) fuel
        ⟨rest.calls + 1, retry_delay * 2 ^ attempt :: rest.sleeps, rest.outcome⟩

/-- Embedding of `HTTPClient.request`: run the retry loop over the attempt outcomes. -/
def HTTPClientState.request (st : HTTPClientState) (attempts : Nat → AttemptResult) :
    TransportTrace :=
  requestGo attempts st.retry_delay st.max_retries 0 st.max_retries

/-! ### Client facade construction -/

/-- Embedding of `api_key or os.getenv(NEWS_API_KEY)`: Python `or` keeps the first operand
when it is truthy (a non-empty string), else yields the second. -/
def resolve_api_key (api_key env_api_key : Option String) : Option String :=
  match api_key with
  | some s => if s ≠ "" then some s else env_api_key
  | none => env_api_key

/-- The default `base_url` of `CurrentsClient.__init__`. -/
def DEFAULT_BASE_URL : String := "https://api.currentsapi.services/v1"

/-- Embedding of `CurrentsClient.__init__(api_key, base_url)` with the ambient
`NEWS_API_KEY` environment value passed explicitly: resolve the credential,
fail with `CurrentsAuthenticationError` when it is missing or empty, else
build the HTTP client state. A pure construction: no network call happens. -/
def CurrentsClient_init (api_key env_api_key : Option String) (base_url : String) :
    Except CurrentsError HTTPClientState :=
  match resolve_api_key api_key env_api_key with
  | none => .error (mkCurrentsAuthenticationError invalid_api_key_msg)
  | some k =>
    if k = "" then
      .error (mkCurrentsAuthenticationError invalid_api_key_msg)
    else
      .ok (HTTPClient_init k base_url)

/-! ### Response mapper: `models.py` (`NewsArticle`, `NewsResponse`)

The field lists and requiredness come from the pydantic model declarations in
`models.py`; the runtime enforcement (field presence, `HttpUrl` and
`datetime` parsing) is pydantic library code, modelled here from the spec. -/

/-- Modelled from the spec: pydantic `HttpUrl` well-formedness, which the
source delegates to the pydantic library — a well-formed absolute URL, an
http or https scheme followed by a nonempty host part. -/
def isWellFormedUrl (s : String) : Bool :=
  (s.startsWith "http://" && 7 < s.length) || (s.startsWith "https://" && 8 < s.length)

/-- Modelled from the spec: pydantic `datetime` parsing of the `published`
field, which the source delegates to the pydantic library — an ISO-8601-like
string, beginning with a `YYYY-MM-DD` date. -/
def isParseableTimestamp (s : String) : Bool :=
  match s.data with
  | y1 :: y2 :: y3 :: y4 :: '-' :: m1 :: m2 :: '-' :: d1 :: d2 :: _ =>
    [y1, y2, y3, y4, m1, m2, d1, d2].all Char.isDigit
  | _ => false

/-- A validation failure of the response mapper: pydantic raises a
validation error naming the offending field and a reason. -/
structure MapperFieldError where
  field : String
  reason : String
deriving DecidableEq, Repr

/-- Look a key up in a JSON object field list. -/
def jsonLookup (fields : List (String × Json)) (key : String) : Option Json :=
  (fields.find? (fun kv => kv.1 == key)).map (fun kv => kv.2)

/-- A required `str` field of a pydantic model: must be present and a string. -/
def getRequiredStr (fields : List (String × Json)) (name : String) :
    Except MapperFieldError String :=
  match jsonLookup fields name with
  | none => .error ⟨name, "field required"⟩
  | some (.str s) => .ok s
  | some _ => .error ⟨name, "str type expected"⟩

/-- An `Optional[str]` field: absent or null maps to `none`. -/
def getOptionalStr (fields : List (String × Json)) (name : String) :
    Except MapperFieldError (Option String) :=
  match jsonLookup fields name with
  | none => .ok none
  | some .null => .ok none
  | some (.str s) => .ok (some s)
  | some _ => .error ⟨name, "str type expected"⟩

/-- The required `url: HttpUrl` field: present, a string, and a well-formed
URL. -/
def getUrlField (fields : List (String × Json)) : Except MapperFieldError String :=
  match jsonLookup fields "url" with
  | none => .error ⟨"url", "field required"⟩
  | some (.str s) =>
    if isWellFormedUrl s then .ok s else .error ⟨"url", "invalid or missing URL scheme"⟩
  | some _ => .error ⟨"url", "URL str type expected"⟩

/-- The required `published: datetime` field: present, a string, and a
parseable timestamp. -/
def getPublishedField (fields : List (String × Json)) : Except MapperFieldError String :=
  match jsonLookup fields "published" with
  | none => .error ⟨"published", "field required"⟩
  | some (.str s) =>
    if isParseableTimestamp s then .ok s else .error ⟨"published", "invalid datetime format"⟩
  | some _ => .error ⟨"published", "datetime str type expected"⟩

/-- Whether every element of a JSON array is a string. -/
def allStrings : List Json → Bool
  | [] => true
  | .str _ :: rest => allStrings rest
  | _ => false

/-- Collect the strings of a JSON array known to hold only strings. -/
def stringItems : List Json → List String
  | [] => []
  | .str s :: rest => s :: stringItems rest
  | _ :: rest => stringItems rest

/-- The `category: List[str]` field with `default_factory=list`: absent maps
to the empty list; present must be an array of strings. -/
def getCategoryField (fields : List (String × Json)) :
    Except MapperFieldError (List String) :=
  match jsonLookup fields "category" with
  | none => .ok []
  | some (.arr items) =>
    if allStrings items then .ok (stringItems items) else .error ⟨"category", "str type expected"⟩
  | some _ => .error ⟨"category", "list type expected"⟩

/-- The `NewsArticle` domain object of `models.py`. URL and timestamp are
kept as their validated source strings. -/
structure NewsArticle where
  id : String
  title : String
  description : String
  url : String
  author : Option String
  image : Option String
  language : String
  category : List String
  published : String
deriving DecidableEq, Repr

/-- Map one element of the `news` array into a `NewsArticle`, field by field
in declaration order, failing with an error naming the first missing or
offending field (pydantic validation of `NewsArticle`). -/
def NewsArticle.fromJson : Json → Except MapperFieldError NewsArticle
  | .obj fields =>
    match getRequiredStr fields "id", getRequiredStr fields "title",
          getRequiredStr fields "description", getUrlField fields,
          getOptionalStr fields "author", getOptionalStr fields "image",
          getRequiredStr fields "language", getCategoryField fields,
          getPublishedField fields with
    | .error e, _, _, _, _, _, _, _, _ => .error e
    | _, .error e, _, _, _, _, _, _, _ => .error e
    | _, _, .error e, _, _, _, _, _, _ => .error e
    | _, _, _, .error e, _, _, _, _, _ => .error e
    | _, _, _, _, .error e, _, _, _, _ => .error e
    | _, _, _, _, _, .error e, _, _, _ => .error e
    | _, _, _, _, _, _, .error e, _, _ => .error e
    | _, _, _, _, _, _, _, .error e, _ => .error e
    | _, _, _, _, _, _, _, _, .error e => .error e
    | .ok id, .ok title, .ok description, .ok url, .ok author, .ok image,
      .ok language, .ok category, .ok published =>
      .ok ⟨id, title, description, url, author, image, language, category, published⟩
  | _ => .error ⟨"__root__", "value is not a valid dict"⟩

/-- Map the whole `news` array, failing on the first defective element. -/
def mapArticles : List Json → Except MapperFieldError (List NewsArticle)
  | [] => .ok []
  | j :: rest =>
    match NewsArticle.fromJson j with
    | .error e => .error e
    | .ok a =>
      match mapArticles rest with
      | .error e => .error e
      | .ok l => .ok (a :: l)

/-- The `NewsResponse` domain object of `models.py`. -/
structure NewsResponse where
  status : String
  news : List NewsArticle
deriving DecidableEq, Repr

/-- The derived `NewsResponse.total_count` property: `len(self.news)`. -/
def NewsResponse.total_count (r : NewsResponse) : Nat :=
  r.news.length

/-- Embedding of `NewsResponse(**response_data)`: pydantic validation of the response
object — required `status: str` and required `news: List[NewsArticle]`. -/
def NewsResponse.fromJson : Json → Except MapperFieldError NewsResponse
  | .obj fields =>
    match getRequiredStr fields "status" with
    | .error e => .error e
    | .ok status =>
      match jsonLookup fields "news" with
      | none => .error ⟨"news", "field required"⟩
      | some (.arr items) =>
        match mapArticles items with
        | .error e => .error e
        | .ok news => .ok ⟨status, news⟩
      | some _ => .error ⟨"news", "list type expected"⟩
  | _ => .error ⟨"__root__", "value is not a valid dict"⟩

/-! Spec-side well-formedness of one article object, used to state the
mapper claims: which fields a defect can live in, and when an object is
defect-free. -/

/-- The six required article fields named by the spec. -/
def requiredArticleFields : List String :=
  ["id", "title", "description", "url", "language", "published"]

/-- All nine declared article fields, in declaration order. -/
def articleFields : List String :=
  ["id", "title", "description", "url", "author", "image", "language", "category", "published"]

/-- Whether a single declared field of an article object is well-formed. -/
def articleFieldOk (fields : List (String × Json)) (name : String) : Bool :=
  if name = "url" then (getUrlField fields).isOk
  else if name = "published" then (getPublishedField fields).isOk
  else if name = "author" ∨ name = "image" then (getOptionalStr fields name).isOk
  else if name = "category" then (getCategoryField fields).isOk
  else (getRequiredStr fields name).isOk

/-- An article object is well-formed when every declared field is. -/
def articleWellFormed (fields : List (String × Json)) : Bool :=
  articleFields.all (articleFieldOk fields)

/-! ### Theorems -/

/-- C8: for every `NewsResponse`, including one with an empty `news`
sequence, the derived attribute `total_count` equals the length of the
`news` sequence. -/
theorem total_count_eq_news_length (r : NewsResponse) :
    r.total_count = r.news.length :=
  rfl

/-- C2: the error classifier `handle_http_error` maps each HTTP error status
to exactly one typed error, first match winning: 401 to Authentication
(regardless of the response content), 429 to RateLimit, 400 to Validation,
any status at least 500 to Server, and any other status to the generic API
error whose message is built from the numeric status code and the reason
phrase of the response. -/
theorem handle_http_error_spec (r : HttpResponse) :
    handle_http_error 401 r = mkCurrentsAuthenticationError invalid_api_key_msg ∧
    (handle_http_error 429 r).kind = ErrorKind.rateLimit ∧
    handle_http_error 400 r = mkCurrentsValidationError invalid_parameters_msg none ∧
    (∀ sc : Nat, 500 ≤ sc → handle_http_error sc r = mkCurrentsServerError server_error_msg) ∧
    (∀ sc : Nat, sc ≠ 401 → sc ≠ 429 → sc ≠ 400 → sc < 500 →
      handle_http_error sc r =
        mkCurrentsAPIError ("HTTP " ++ toString sc ++ ": " ++ r.reason) none) := by
  refine ⟨rfl, ?_, rfl, ?_, ?_⟩
  · simp [handle_http_error, handle_rate_limit_error, mkCurrentsRateLimitError]
  · intro sc hsc
    have h1 : sc ≠ 401 := by omega
    have h2 : sc ≠ 429 := by omega
    have h3 : sc ≠ 400 := by omega
    simp [handle_http_error, h1, h2, h3, hsc]
  · intro sc h1 h2 h3 h4
    have h5 : ¬ 500 ≤ sc := by omega
    simp [handle_http_error, h1, h2, h3, h5]

/-- Witness for C2 at concrete inputs: a 500 response is classified as a
Server error and a 418 response as a generic API error mentioning 418. -/
theorem handle_http_error_spec_witness :
    handle_http_error 500 ⟨500, "Internal Server Error", [], none⟩ =
      mkCurrentsServerError server_error_msg ∧
    handle_http_error 418 ⟨418, "I am a teapot", [], none⟩ =
      mkCurrentsAPIError ("HTTP " ++ toString 418 ++ ": " ++ "I am a teapot") none := by
  constructor
  · exact (handle_http_error_spec ⟨500, "Internal Server Error", [], none⟩).2.2.2.1
      500 (by decide)
  · exact (handle_http_error_spec ⟨418, "I am a teapot", [], none⟩).2.2.2.2
      418 (by decide) (by decide) (by decide) (by decide)

/-- C6: a 429 response always yields a RateLimit error; its `retry_after`
equals the integer value of the `Retry-After` header when present and
parseable as a Python integer, and is unset when the header is missing or
unparseable — the header handling itself never raises. -/
theorem rate_limit_retry_after_spec (r : HttpResponse) :
    (handle_rate_limit_error r).kind = ErrorKind.rateLimit ∧
    (handle_rate_limit_error r).message = rate_limit_exceeded_msg ∧
    handle_http_error 429 r = handle_rate_limit_error r ∧
    (∀ s n, headersGet r.headers "Retry-After" = some s → pyInt s = some n →
      (handle_rate_limit_error r).retry_after = some n) ∧
    (headersGet r.headers "Retry-After" = none →
      (handle_rate_limit_error r).retry_after = none) ∧
    (∀ s, headersGet r.headers "Retry-After" = some s → pyInt s = none →
      (handle_rate_limit_error r).retry_after = none) := by
  refine ⟨rfl, rfl, rfl, ?_, ?_, ?_⟩
  · intro s n hs hn
    by_cases hse : s = ""
    · subst hse
      have hpe : pyInt "" = none := rfl
      rw [hpe] at hn
      cases hn
    · simp [handle_rate_limit_error, mkCurrentsRateLimitError, hs, hse, hn]
  · intro hs
    simp [handle_rate_limit_error, mkCurrentsRateLimitError, hs]
  · intro s hs hn
    by_cases hse : s = ""
    · simp [handle_rate_limit_error, mkCurrentsRateLimitError, hs, hse]
    · simp [handle_rate_limit_error, mkCurrentsRateLimitError, hs, hse, hn]

/-- Witness for C6 at concrete inputs: header value 60 gives
`retry_after = 60`; a non-numeric header and a missing header give an unset
`retry_after`. -/
theorem rate_limit_retry_after_spec_witness :
    (handle_rate_limit_error ⟨429, "Too Many Requests", [("Retry-After", "60")], none⟩).retry_after = some 60 ∧
    (handle_rate_limit_error ⟨429, "Too Many Requests", [("Retry-After", "soon")], none⟩).retry_after = none ∧
    (handle_rate_limit_error ⟨429, "Too Many Requests", [], none⟩).retry_after = none := by
  refine ⟨?_, ?_, ?_⟩
  · exact (rate_limit_retry_after_spec _).2.2.2.1 "60" 60 rfl (by decide)
  · exact (rate_limit_retry_after_spec _).2.2.2.2.2 "soon" rfl (by decide)
  · exact (rate_limit_retry_after_spec _).2.2.2.2.1 rfl

/-- C5: on every 2xx response, JSON parsing of the body is attempted; an
unparseable body yields a Response-kind error whose message flags invalid
JSON, a parsed body that is not a key-value object yields the Response-kind
invalid-response error, and a parsed object is returned unchanged. -/
theorem handle_response_2xx_spec (r : HttpResponse)
    (h2xx : 200 ≤ r.status_code ∧ r.status_code < 300) :
    (r.body = none →
      handle_response r =
        .error (mkCurrentsResponseError (invalid_response_msg ++ ": Invalid JSON"))) ∧
    (∀ j, r.body = some j → j.isObj = false →
      handle_response r = .error (mkCurrentsResponseError invalid_response_msg)) ∧
    (∀ fields, r.body = some (Json.obj fields) →
      handle_response r = .ok (Json.obj fields)) := by
  have hr : raise_for_status_raises r.status_code = false := by
    unfold raise_for_status_raises
    have : ¬ 400 ≤ r.status_code := by omega
    simp [this]
  refine ⟨?_, ?_, ?_⟩
  · intro hb
    simp [handle_response, hr, parse_response_json, hb]
  · intro j hb hobj
    simp [handle_response, hr, parse_response_json, hb, hobj]
  · intro fields hb
    simp [handle_response, hr, parse_response_json, hb, Json.isObj]

/-- Witness for C5 at concrete inputs: a 200 response with an unparseable
body, with an array body, and with an object body. -/
theorem handle_response_2xx_spec_witness :
    handle_response ⟨200, "OK", [], none⟩ =
      .error (mkCurrentsResponseError (invalid_response_msg ++ ": Invalid JSON")) ∧
    handle_response ⟨200, "OK", [], some (Json.arr [])⟩ =
      .error (mkCurrentsResponseError invalid_response_msg) ∧
    handle_response ⟨200, "OK", [], some (Json.obj [])⟩ = .ok (Json.obj []) := by
  refine ⟨?_, ?_, ?_⟩
  · exact (handle_response_2xx_spec ⟨200, "OK", [], none⟩ (by constructor <;> decide)).1 rfl
  · exact (handle_response_2xx_spec ⟨200, "OK", [], some (Json.arr [])⟩
      (by constructor <;> decide)).2.1 (Json.arr []) rfl rfl
  · exact (handle_response_2xx_spec ⟨200, "OK", [], some (Json.obj [])⟩
      (by constructor <;> decide)).2.2 [] rfl

/-- Helper: the only error `validate_language` raises. -/
lemma validate_language_error (lang : String) (e : CurrentsError)
    (h : validate_language lang = .error e) :
    e = mkCurrentsValidationError invalid_language_msg none := by
  unfold validate_language at h
  split at h
  · injection h with h2
    exact h2.symm
  · exact Except.noConfusion h

/-- Helper: the only error `validate_limit` raises. -/
lemma validate_limit_error (lim : Int) (e : CurrentsError)
    (h : validate_limit lim = .error e) :
    e = mkCurrentsValidationError limit_out_of_range_msg none := by
  unfold validate_limit at h
  split at h
  · injection h with h2
    exact h2.symm
  · exact Except.noConfusion h

/-- Helper: the only error `validate_category` raises. -/
lemma validate_category_error (cat : String) (e : CurrentsError)
    (h : validate_category cat = .error e) :
    e = mkCurrentsValidationError invalid_category_msg none := by
  unfold validate_category at h
  split at h
  · injection h with h2
    exact h2.symm
  · exact Except.noConfusion h

/-- Helper: every error raised by `validate_params` is Validation-kind with
status code 400. -/
lemma validate_params_error_validation (lang : String) (lim : Int) (cat : Option String)
    (e : CurrentsError) (h : validate_params lang lim cat = .error e) :
    e.kind = ErrorKind.validation ∧ e.status_code = some 400 := by
  unfold validate_params at h
  split at h
  · rename_i e1 heq
    injection h with h2
    subst h2
    rw [validate_language_error _ _ heq]
    exact ⟨rfl, rfl⟩
  · split at h
    · rename_i e1 heq
      injection h with h2
      subst h2
      rw [validate_limit_error _ _ heq]
      exact ⟨rfl, rfl⟩
    · split at h
      · split at h
        · rw [validate_category_error _ _ h]
          exact ⟨rfl, rfl⟩
        · exact Except.noConfusion h
      · exact Except.noConfusion h

/-- Helper: every error raised by client construction is Authentication-kind
with status code 401. -/
lemma client_init_error_auth (ak env : Option String) (base : String)
    (e : CurrentsError) (h : CurrentsClient_init ak env base = .error e) :
    e.kind = ErrorKind.authentication ∧ e.status_code = some 401 := by
  unfold CurrentsClient_init at h
  split at h
  · injection h with h2
    subst h2
    exact ⟨rfl, rfl⟩
  · split at h
    · injection h with h2
      subst h2
      exact ⟨rfl, rfl⟩
    · exact Except.noConfusion h

/-- C9: every error of the family carries the status code fixed by its kind:
Validation 400 (also for the client-side pre-validation failures raised by
`validate_params` before any network call), Authentication 401 (also for the
construction-time missing-credential failure), RateLimit 429, Server 500,
while Connection and Response errors carry none. -/
theorem error_status_code_spec (msg : String) (ra : Option Int) (f : Option String) :
    (mkCurrentsValidationError msg f).status_code = some 400 ∧
    (mkCurrentsAuthenticationError msg).status_code = some 401 ∧
    (mkCurrentsRateLimitError msg ra).status_code = some 429 ∧
    (mkCurrentsServerError msg).status_code = some 500 ∧
    (mkCurrentsConnectionError msg).status_code = none ∧
    (mkCurrentsResponseError msg).status_code = none ∧
    (∀ lang lim cat e, validate_params lang lim cat = .error e →
      e.kind = ErrorKind.validation ∧ e.status_code = some 400) ∧
    (∀ ak env base e, CurrentsClient_init ak env base = .error e →
      e.kind = ErrorKind.authentication ∧ e.status_code = some 401) := by
  refine ⟨rfl, rfl, rfl, rfl, rfl, rfl, ?_, ?_⟩
  · exact fun lang lim cat e h => validate_params_error_validation lang lim cat e h
  · exact fun ak env base e h => client_init_error_auth ak env base e h

/-- Witness for C9 at concrete inputs: a client-side validation failure
carries 400 and a construction-time credential failure carries 401. -/
theorem error_status_code_spec_witness :
    (mkCurrentsAuthenticationError "m").status_code = some 401 ∧
    (∃ e, validate_params "xx" 0 none = .error e ∧ e.status_code = some 400) ∧
    (∃ e, CurrentsClient_init none none DEFAULT_BASE_URL = .error e ∧
      e.status_code = some 401) := by
  have h := error_status_code_spec "m" none none
  refine ⟨h.2.1, ?_, ?_⟩
  · exact ⟨_, rfl, (h.2.2.2.2.2.2.1 "xx" 0 none _ rfl).2⟩
  · exact ⟨_, rfl, (h.2.2.2.2.2.2.2 none none DEFAULT_BASE_URL _ rfl).2⟩

/-- C7: constructing a client with no usable credential from either the
explicit argument or the ambient environment fails with an Authentication
error (construction is pure, so no network call happens); a non-empty
credential from either source makes construction succeed with that
credential attached as the `apiKey` session query parameter. -/
theorem client_init_spec (api_key env : Option String) (base : String) :
    ((resolve_api_key api_key env = none ∨ resolve_api_key api_key env = some "") →
      CurrentsClient_init api_key env base =
        .error (mkCurrentsAuthenticationError invalid_api_key_msg)) ∧
    (∀ s, resolve_api_key api_key env = some s → s ≠ "" →
      CurrentsClient_init api_key env base = .ok (HTTPClient_init s base) ∧
      (HTTPClient_init s base).session_params = [("apiKey", s)]) := by
  constructor
  · rintro (h | h) <;> simp [CurrentsClient_init, h]
  · intro s hs hne
    exact ⟨by simp [CurrentsClient_init, hs, hne], rfl⟩

/-- Witness for C7 at concrete inputs: no credential at all fails with the
Authentication error; an environment-only credential succeeds and is
attached to the session. -/
theorem client_init_spec_witness :
    CurrentsClient_init none none DEFAULT_BASE_URL =
      .error (mkCurrentsAuthenticationError invalid_api_key_msg) ∧
    CurrentsClient_init none (some "envkey") DEFAULT_BASE_URL =
      .ok (HTTPClient_init "envkey" DEFAULT_BASE_URL) ∧
    (HTTPClient_init "envkey" DEFAULT_BASE_URL).session_params = [("apiKey", "envkey")] := by
  refine ⟨?_, ?_, ?_⟩
  · exact (client_init_spec none none DEFAULT_BASE_URL).1 (Or.inl rfl)
  · exact ((client_init_spec none (some "envkey") DEFAULT_BASE_URL).2 "envkey" rfl
      (by decide)).1
  · exact ((client_init_spec none (some "envkey") DEFAULT_BASE_URL).2 "envkey" rfl
      (by decide)).2

/-- C10: client construction normalizes the base URL by stripping all
trailing slash characters, every request targets exactly the concatenation
of the normalized base URL and the relative endpoint, a base URL given with
or without a trailing slash produces the same request URL, and the
normalized base URL never ends in a slash. -/
theorem base_url_normalization_spec (api_key base endpoint : String) :
    (HTTPClient_init api_key base).base_url = pyRstripSlash base ∧
    (HTTPClient_init api_key base).request_url endpoint = pyRstripSlash base ++ endpoint ∧
    (HTTPClient_init api_key (base ++ "/")).request_url endpoint =
      (HTTPClient_init api_key base).request_url endpoint ∧
    (∀ c, (pyRstripSlash base).data.getLast? = some c → (c == '/') = false) := by
  refine ⟨rfl, rfl, ?_, ?_⟩
  · show pyRstripSlash (base ++ "/") ++ endpoint = pyRstripSlash base ++ endpoint
    have hd : (base ++ "/").data = base.data ++ ['/'] := rfl
    unfold pyRstripSlash
    rw [hd, List.reverse_append]
    simp [List.dropWhile]
  · intro c hc
    unfold pyRstripSlash at hc
    rw [List.getLast?_reverse] at hc
    have hnot := List.head?_dropWhile_not (fun ch => ch == '/') base.data.reverse
    simp_all

/-- Witness for C10 at concrete inputs: a trailing slash on the base URL
does not change the request URL, and the normalized base URL does not end
in a slash. -/
theorem base_url_normalization_spec_witness :
    (HTTPClient_init "k" ("api/v1" ++ "/")).request_url "/latest-news" =
      (HTTPClient_init "k" "api/v1").request_url "/latest-news" ∧
    ('1' == '/') = false := by
  constructor
  · exact (base_url_normalization_spec "k" "api/v1" "/latest-news").2.2.1
  · exact (base_url_normalization_spec "k" "api/v1" "/latest-news").2.2.2 '1' (by decide)

/-- C3: `validate_params` raises exactly when the language is not one of the
14 fixed codes, the limit is outside the range from `MIN_LIMIT` to
`MAX_LIMIT`, or a supplied non-empty category is not one of the 12 fixed
codes; the checks run in the order language, limit, category, so the first
violated rule is the error reported, and every reported error is
Validation-kind. Validation is a pure function, so no network call happens. -/
theorem validate_params_spec (language : String) (limit : Int) (category : Option String) :
    (validate_params language limit category = .ok () ↔
      (language ∈ valid_languages ∧ MIN_LIMIT ≤ limit ∧ limit ≤ MAX_LIMIT ∧
        ∀ c, category = some c → c ≠ "" → c ∈ valid_categories)) ∧
    (language ∉ valid_languages →
      validate_params language limit category =
        .error (mkCurrentsValidationError invalid_language_msg none)) ∧
    (language ∈ valid_languages → (limit < MIN_LIMIT ∨ limit > MAX_LIMIT) →
      validate_params language limit category =
        .error (mkCurrentsValidationError limit_out_of_range_msg none)) ∧
    (language ∈ valid_languages → MIN_LIMIT ≤ limit → limit ≤ MAX_LIMIT →
      ∀ c, category = some c → c ≠ "" → c ∉ valid_categories →
        validate_params language limit category =
          .error (mkCurrentsValidationError invalid_category_msg none)) ∧
    (∀ e, validate_params language limit category = .error e →
      e.kind = ErrorKind.validation) := by
  have p2 : language ∉ valid_languages →
      validate_params language limit category =
        .error (mkCurrentsValidationError invalid_language_msg none) := by
    intro hl
    simp [validate_params, validate_language, hl]
  have p3 : language ∈ valid_languages → (limit < MIN_LIMIT ∨ limit > MAX_LIMIT) →
      validate_params language limit category =
        .error (mkCurrentsValidationError limit_out_of_range_msg none) := by
    intro hl hlim
    simp [validate_params, validate_language, validate_limit, hl, hlim]
  have p4 : language ∈ valid_languages → MIN_LIMIT ≤ limit → limit ≤ MAX_LIMIT →
      ∀ c, category = some c → c ≠ "" → c ∉ valid_categories →
        validate_params language limit category =
          .error (mkCurrentsValidationError invalid_category_msg none) := by
    intro hl h1 h2 c hc hne hcat
    subst hc
    have hlim : ¬(limit < MIN_LIMIT ∨ limit > MAX_LIMIT) := by
      rw [show MIN_LIMIT = 1 from rfl] at h1 ⊢
      rw [show MAX_LIMIT = 100 from rfl] at h2 ⊢
      omega
    simp [validate_params, validate_language, validate_limit, validate_category,
      hl, hlim, hne, hcat]
  refine ⟨?_, p2, p3, p4, fun e h => (validate_params_error_validation _ _ _ e h).1⟩
  constructor
  · intro h
    have hl : language ∈ valid_languages := by
      by_contra hl
      rw [p2 hl] at h
      exact Except.noConfusion h
    have hmin : MIN_LIMIT ≤ limit := by
      by_contra hmin
      rw [p3 hl (Or.inl (by omega))] at h
      exact Except.noConfusion h
    have hmax : limit ≤ MAX_LIMIT := by
      by_contra hmax
      rw [p3 hl (Or.inr (by omega))] at h
      exact Except.noConfusion h
    refine ⟨hl, hmin, hmax, ?_⟩
    intro c hc hne
    by_contra hcat
    rw [p4 hl hmin hmax c hc hne hcat] at h
    exact Except.noConfusion h
  · rintro ⟨hl, hmin, hmax, hcat⟩
    have hlim : ¬(limit < MIN_LIMIT ∨ limit > MAX_LIMIT) := by
      rw [show MIN_LIMIT = 1 from rfl] at hmin ⊢
      rw [show MAX_LIMIT = 100 from rfl] at hmax ⊢
      omega
    cases category with
    | none => simp [validate_params, validate_language, validate_limit, hl, hlim]
    | some c =>
      by_cases hne : c = ""
      · subst hne
        simp [validate_params, validate_language, validate_limit, hl, hlim]
      · have hc : c ∈ valid_categories := hcat c rfl hne
        simp [validate_params, validate_language, validate_limit, validate_category,
          hl, hlim, hne, hc]

/-- Witness for C3 at concrete inputs: valid parameters pass; an unsupported
language, an out-of-range limit, and an unsupported category each fail with
the corresponding first-violated error. -/
theorem validate_params_spec_witness :
    validate_params "en" 20 none = .ok () ∧
    validate_params "xx" 20 none =
      .error (mkCurrentsValidationError invalid_language_msg none) ∧
    validate_params "en" 0 (some "sports") =
      .error (mkCurrentsValidationError limit_out_of_range_msg none) ∧
    validate_params "en" 20 (some "foo") =
      .error (mkCurrentsValidationError invalid_category_msg none) := by
  refine ⟨?_, ?_, ?_, ?_⟩
  · exact (validate_params_spec "en" 20 none).1.mpr
      ⟨by decide, by decide, by decide, fun c hc => by cases hc⟩
  · exact (validate_params_spec "xx" 20 none).2.1 (by decide)
  · exact (validate_params_spec "en" 0 (some "sports")).2.2.1 (by decide)
      (Or.inl (by decide))
  · exact (validate_params_spec "en" 20 (some "foo")).2.2.2.1 (by decide) (by decide)
      (by decide) "foo" rfl (by decide) (by decide)

/-- C1: `HTTPClient.request` performs at most 3 underlying network calls;
when all 3 attempts fail at the transport level it makes exactly 3 calls,
sleeps 1s then 2s between them, and fails with exactly one Connection-kind
error; when attempt `k` is the first transport success, it makes exactly
`k + 1` calls, slept `retry_delay * 2 ^ i` seconds after each failed attempt
`i`, and hands the response to response handling with no further attempts —
so retries happen only after transport-level failures, never after an HTTP
error status. -/
theorem transport_retry_spec (api_key base : String) (attempts : Nat → AttemptResult) :
    ((HTTPClient_init api_key base).request attempts).calls ≤ 3 ∧
    ((∀ i, i < 3 → attempts i = .failure) →
      (HTTPClient_init api_key base).request attempts =
        ⟨3, [1, 2], .error (mkCurrentsConnectionError connection_error_msg)⟩) ∧
    (∀ k r, k < 3 → (∀ i, i < k → attempts i = .failure) → attempts k = .success r →
      (HTTPClient_init api_key base).request attempts =
        ⟨k + 1, (List.range k).map (fun i => 1 * 2 ^ i), handle_response r⟩) := by
  refine ⟨?_, ?_, ?_⟩
  · rcases h0 : attempts 0 with _ | r0 <;>
      rcases h1 : attempts 1 with _ | r1 <;>
        rcases h2 : attempts 2 with _ | r2 <;>
          simp [HTTPClientState.request, HTTPClient_init, requestGo, h0, h1, h2]
  · intro hfail
    have h0 := hfail 0 (by omega)
    have h1 := hfail 1 (by omega)
    have h2 := hfail 2 (by omega)
    simp [HTTPClientState.request, HTTPClient_init, requestGo, h0, h1, h2]
  · intro k r hk hfail hsucc
    interval_cases k
    · simp [HTTPClientState.request, HTTPClient_init, requestGo, hsucc]
    · have h0 := hfail 0 (by omega)
      simp [HTTPClientState.request, HTTPClient_init, requestGo, h0, hsucc,
        List.range_succ]
    · have h0 := hfail 0 (by omega)
      have h1 := hfail 1 (by omega)
      simp [HTTPClientState.request, HTTPClient_init, requestGo, h0, h1, hsucc,
        List.range_succ]

/-- Witness for C1 at a concrete input: with every attempt failing at the
transport level, exactly 3 calls are made, with sleeps of 1s and 2s, and the
outcome is the Connection error. -/
theorem transport_retry_spec_witness :
    (HTTPClient_init "k" DEFAULT_BASE_URL).request (fun _ => AttemptResult.failure) =
      ⟨3, [1, 2], .error (mkCurrentsConnectionError connection_error_msg)⟩ :=
  (transport_retry_spec "k" DEFAULT_BASE_URL (fun _ => AttemptResult.failure)).2.1
    (fun _ _ => rfl)

/-! ### Lemmas about the response mapper -/

/-- Helper: a `getRequiredStr` error names its own field. -/
lemma getRequiredStr_error_field (fields : List (String × Json)) (name : String)
    (e : MapperFieldError) (h : getRequiredStr fields name = .error e) :
    e.field = name := by
  unfold getRequiredStr at h
  repeat' split at h
  all_goals first
    | exact Except.noConfusion h
    | (injection h with h2; subst h2; rfl)

/-- Helper: a `getOptionalStr` error names its own field. -/
lemma getOptionalStr_error_field (fields : List (String × Json)) (name : String)
    (e : MapperFieldError) (h : getOptionalStr fields name = .error e) :
    e.field = name := by
  unfold getOptionalStr at h
  repeat' split at h
  all_goals first
    | exact Except.noConfusion h
    | (injection h with h2; subst h2; rfl)

/-- Helper: a `getUrlField` error names the `url` field. -/
lemma getUrlField_error_field (fields : List (String × Json))
    (e : MapperFieldError) (h : getUrlField fields = .error e) :
    e.field = "url" := by
  unfold getUrlField at h
  repeat' split at h
  all_goals first
    | exact Except.noConfusion h
    | (injection h with h2; subst h2; rfl)

/-- Helper: a `getPublishedField` error names the `published` field. -/
lemma getPublishedField_error_field (fields : List (String × Json))
    (e : MapperFieldError) (h : getPublishedField fields = .error e) :
    e.field = "published" := by
  unfold getPublishedField at h
  repeat' split at h
  all_goals first
    | exact Except.noConfusion h
    | (injection h with h2; subst h2; rfl)

/-- Helper: a `getCategoryField` error names the `category` field. -/
lemma getCategoryField_error_field (fields : List (String × Json))
    (e : MapperFieldError) (h : getCategoryField fields = .error e) :
    e.field = "category" := by
  unfold getCategoryField at h
  repeat' split at h
  all_goals first
    | exact Except.noConfusion h
    | (injection h with h2; subst h2; rfl)

/-- Helper: a boolean `all` over a list is false when one member fails. -/
lemma all_eq_false_of_mem {α : Type} {p : α → Bool} {l : List α} {f : α}
    (hf : f ∈ l) (hbad : p f = false) : l.all p = false := by
  rcases hall : l.all p with _ | _
  · rfl
  · rw [List.all_eq_true] at hall
    rw [hall f hf] at hbad
    cases hbad

/-- Helper: `NewsArticle.fromJson` on an object succeeds exactly when every
declared field is well-formed, and an error names a declared field that is
missing or malformed in the object. -/
lemma articleFromJson_spec (fields : List (String × Json)) :
    ((NewsArticle.fromJson (Json.obj fields)).isOk = true ↔
      articleWellFormed fields = true) ∧
    (∀ e, NewsArticle.fromJson (Json.obj fields) = .error e →
      e.field ∈ articleFields ∧ articleFieldOk fields e.field = false) := by
  rcases h1 : getRequiredStr fields "id" with e1 | v1
  · have hfj : NewsArticle.fromJson (Json.obj fields) = .error e1 := by
      simp [NewsArticle.fromJson, h1]
    have hbad : articleFieldOk fields "id" = false := by
      simp [articleFieldOk, h1, Except.isOk, Except.toBool]
    have hwf : articleWellFormed fields = false := all_eq_false_of_mem (by decide) hbad
    refine ⟨by rw [hfj, hwf]; simp [Except.isOk, Except.toBool], ?_⟩
    intro e he
    rw [hfj] at he
    injection he with h2e
    subst h2e
    rw [getRequiredStr_error_field fields "id" e1 h1]
    exact ⟨by decide, hbad⟩
  · rcases h2 : getRequiredStr fields "title" with e2 | v2
    · have hfj : NewsArticle.fromJson (Json.obj fields) = .error e2 := by
        simp [NewsArticle.fromJson, h1, h2]
      have hbad : articleFieldOk fields "title" = false := by
        simp [articleFieldOk, h2, Except.isOk, Except.toBool]
      have hwf : articleWellFormed fields = false := all_eq_false_of_mem (by decide) hbad
      refine ⟨by rw [hfj, hwf]; simp [Except.isOk, Except.toBool], ?_⟩
      intro e he
      rw [hfj] at he
      injection he with h2e
      subst h2e
      rw [getRequiredStr_error_field fields "title" e2 h2]
      exact ⟨by decide, hbad⟩
    · rcases h3 : getRequiredStr fields "description" with e3 | v3
      · have hfj : NewsArticle.fromJson (Json.obj fields) = .error e3 := by
          simp [NewsArticle.fromJson, h1, h2, h3]
        have hbad : articleFieldOk fields "description" = false := by
          simp [articleFieldOk, h3, Except.isOk, Except.toBool]
        have hwf : articleWellFormed fields = false := all_eq_false_of_mem (by decide) hbad
        refine ⟨by rw [hfj, hwf]; simp [Except.isOk, Except.toBool], ?_⟩
        intro e he
        rw [hfj] at he
        injection he with h2e
        subst h2e
        rw [getRequiredStr_error_field fields "description" e3 h3]
        exact ⟨by decide, hbad⟩
      · rcases h4 : getUrlField fields with e4 | v4
        · have hfj : NewsArticle.fromJson (Json.obj fields) = .error e4 := by
            simp [NewsArticle.fromJson, h1, h2, h3, h4]
          have hbad : articleFieldOk fields "url" = false := by
            simp [articleFieldOk, h4, Except.isOk, Except.toBool]
          have hwf : articleWellFormed fields = false := all_eq_false_of_mem (by decide) hbad
          refine ⟨by rw [hfj, hwf]; simp [Except.isOk, Except.toBool], ?_⟩
          intro e he
          rw [hfj] at he
          injection he with h2e
          subst h2e
          rw [getUrlField_error_field fields e4 h4]
          exact ⟨by decide, hbad⟩
        · rcases h5 : getOptionalStr fields "author" with e5 | v5
          · have hfj : NewsArticle.fromJson (Json.obj fields) = .error e5 := by
              simp [NewsArticle.fromJson, h1, h2, h3, h4, h5]
            have hbad : articleFieldOk fields "author" = false := by
              simp [articleFieldOk, h5, Except.isOk, Except.toBool]
            have hwf : articleWellFormed fields = false := all_eq_false_of_mem (by decide) hbad
            refine ⟨by rw [hfj, hwf]; simp [Except.isOk, Except.toBool], ?_⟩
            intro e he
            rw [hfj] at he
            injection he with h2e
            subst h2e
            rw [getOptionalStr_error_field fields "author" e5 h5]
            exact ⟨by decide, hbad⟩
          · rcases h6 : getOptionalStr fields "image" with e6 | v6
            · have hfj : NewsArticle.fromJson (Json.obj fields) = .error e6 := by
                simp [NewsArticle.fromJson, h1, h2, h3, h4, h5, h6]
              have hbad : articleFieldOk fields "image" = false := by
                simp [articleFieldOk, h6, Except.isOk, Except.toBool]
              have hwf : articleWellFormed fields = false := all_eq_false_of_mem (by decide) hbad
              refine ⟨by rw [hfj, hwf]; simp [Except.isOk, Except.toBool], ?_⟩
              intro e he
              rw [hfj] at he
              injection he with h2e
              subst h2e
              rw [getOptionalStr_error_field fields "image" e6 h6]
              exact ⟨by decide, hbad⟩
            · rcases h7 : getRequiredStr fields "language" with e7 | v7
              · have hfj : NewsArticle.fromJson (Json.obj fields) = .error e7 := by
                  simp [NewsArticle.fromJson, h1, h2, h3, h4, h5, h6, h7]
                have hbad : articleFieldOk fields "language" = false := by
                  simp [articleFieldOk, h7, Except.isOk, Except.toBool]
                have hwf : articleWellFormed fields = false := all_eq_false_of_mem (by decide) hbad
                refine ⟨by rw [hfj, hwf]; simp [Except.isOk, Except.toBool], ?_⟩
                intro e he
                rw [hfj] at he
                injection he with h2e
                subst h2e
                rw [getRequiredStr_error_field fields "language" e7 h7]
                exact ⟨by decide, hbad⟩
              · rcases h8 : getCategoryField fields with e8 | v8
                · have hfj : NewsArticle.fromJson (Json.obj fields) = .error e8 := by
                    simp [NewsArticle.fromJson, h1, h2, h3, h4, h5, h6, h7, h8]
                  have hbad : articleFieldOk fields "category" = false := by
                    simp [articleFieldOk, h8, Except.isOk, Except.toBool]
                  have hwf : articleWellFormed fields = false :=
                    all_eq_false_of_mem (by decide) hbad
                  refine ⟨by rw [hfj, hwf]; simp [Except.isOk, Except.toBool], ?_⟩
                  intro e he
                  rw [hfj] at he
                  injection he with h2e
                  subst h2e
                  rw [getCategoryField_error_field fields e8 h8]
                  exact ⟨by decide, hbad⟩
                · rcases h9 : getPublishedField fields with e9 | v9
                  · have hfj : NewsArticle.fromJson (Json.obj fields) = .error e9 := by
                      simp [NewsArticle.fromJson, h1, h2, h3, h4, h5, h6, h7, h8, h9]
                    have hbad : articleFieldOk fields "published" = false := by
                      simp [articleFieldOk, h9, Except.isOk, Except.toBool]
                    have hwf : articleWellFormed fields = false :=
                      all_eq_false_of_mem (by decide) hbad
                    refine ⟨by rw [hfj, hwf]; simp [Except.isOk, Except.toBool], ?_⟩
                    intro e he
                    rw [hfj] at he
                    injection he with h2e
                    subst h2e
                    rw [getPublishedField_error_field fields e9 h9]
                    exact ⟨by decide, hbad⟩
                  · have hfj : NewsArticle.fromJson (Json.obj fields) =
                        .ok ⟨v1, v2, v3, v4, v5, v6, v7, v8, v9⟩ := by
                      simp [NewsArticle.fromJson, h1, h2, h3, h4, h5, h6, h7, h8, h9]
                    have hwf : articleWellFormed fields = true := by
                      simp [articleWellFormed, articleFields, articleFieldOk,
                        h1, h2, h3, h4, h5, h6, h7, h8, h9, Except.isOk, Except.toBool]
                    refine ⟨by rw [hfj, hwf]; simp [Except.isOk, Except.toBool], ?_⟩
                    intro e he
                    rw [hfj] at he
                    exact Except.noConfusion he

/-- Helper: a `mapArticles` error is the error of some element of the array. -/
lemma mapArticles_error_mem (items : List Json) (e : MapperFieldError)
    (h : mapArticles items = .error e) :
    ∃ j, j ∈ items ∧ NewsArticle.fromJson j = .error e := by
  induction items with
  | nil =>
    exact Except.noConfusion h
  | cons j rest ih =>
    unfold mapArticles at h
    rcases hj : NewsArticle.fromJson j with e1 | a
    · rw [hj] at h
      injection h with h2
      subst h2
      exact ⟨j, List.mem_cons_self j rest, hj⟩
    · rw [hj] at h
      rcases hr : mapArticles rest with e2 | l
      · rw [hr] at h
        injection h with h2
        subst h2
        obtain ⟨j2, hj2, he2⟩ := ih hr
        exact ⟨j2, List.mem_cons_of_mem j hj2, he2⟩
      · rw [hr] at h
        exact Except.noConfusion h

/-- Helper: when `mapArticles` succeeds, every element mapped successfully
and the article count equals the array length. -/
lemma mapArticles_ok_all (items : List Json) (l : List NewsArticle)
    (h : mapArticles items = .ok l) :
    l.length = items.length ∧ ∀ j ∈ items, (NewsArticle.fromJson j).isOk = true := by
  induction items generalizing l with
  | nil =>
    unfold mapArticles at h
    injection h with h2
    subst h2
    exact ⟨rfl, by intro j hj; cases hj⟩
  | cons j rest ih =>
    unfold mapArticles at h
    rcases hj : NewsArticle.fromJson j with e1 | a
    · rw [hj] at h
      exact Except.noConfusion h
    · rw [hj] at h
      rcases hr : mapArticles rest with e2 | l2
      · rw [hr] at h
        exact Except.noConfusion h
      · rw [hr] at h
        injection h with h2
        subst h2
        obtain ⟨hlen, hall⟩ := ih l2 hr
        refine ⟨by simp [hlen], ?_⟩
        intro j2 hj2
        rcases List.mem_cons.mp hj2 with h2 | h2
        · subst h2
          simp [hj, Except.isOk, Except.toBool]
        · exact hall j2 h2

/-- Helper: when every element maps successfully, `mapArticles` succeeds
with one article per element. -/
lemma mapArticles_ok_of_all (items : List Json)
    (h : ∀ j ∈ items, (NewsArticle.fromJson j).isOk = true) :
    ∃ l, mapArticles items = .ok l ∧ l.length = items.length := by
  induction items with
  | nil => exact ⟨[], rfl, rfl⟩
  | cons j rest ih =>
    have hj := h j (List.mem_cons_self j rest)
    rcases hje : NewsArticle.fromJson j with e1 | a
    · rw [hje] at hj
      cases hj
    · obtain ⟨l, hl, hlen⟩ := ih (fun j2 hj2 => h j2 (List.mem_cons_of_mem j hj2))
      refine ⟨a :: l, ?_, by simp [hlen]⟩
      unfold mapArticles
      rw [hje, hl]

/-- Helper: `NewsResponse.fromJson` on the classifier-approved response shape
reduces to mapping the `news` array. -/
lemma newsResponse_fromJson_shape (st : String) (items : List Json) :
    NewsResponse.fromJson (Json.obj [("status", Json.str st), ("news", Json.arr items)]) =
      match mapArticles items with
      | .error e => .error e
      | .ok news => .ok ⟨st, news⟩ := by
  rfl

/-- Helper: one defective element makes the whole response mapping fail with
an error naming a missing or malformed declared field of some element. -/
lemma mapper_fails_on_bad_element (st : String) (items : List Json)
    (hobjs : ∀ j ∈ items, ∃ bf, j = Json.obj bf)
    (af : List (String × Json)) (hmem : Json.obj af ∈ items)
    (hbad : articleWellFormed af = false) :
    ∃ e, NewsResponse.fromJson
        (Json.obj [("status", Json.str st), ("news", Json.arr items)]) = .error e ∧
      ∃ bf, Json.obj bf ∈ items ∧ e.field ∈ articleFields ∧
        articleFieldOk bf e.field = false := by
  rcases hm : mapArticles items with e | l
  · obtain ⟨j, hjmem, hje⟩ := mapArticles_error_mem items e hm
    obtain ⟨bf, rfl⟩ := hobjs j hjmem
    have hd := (articleFromJson_spec bf).2 e hje
    refine ⟨e, ?_, bf, hjmem, hd.1, hd.2⟩
    rw [newsResponse_fromJson_shape, hm]
  · exfalso
    have hall := (mapArticles_ok_all items l hm).2
    have hok := hall _ hmem
    rw [(articleFromJson_spec af).1] at hok
    rw [hok] at hbad
    cases hbad

/-- C4: over a classifier-approved (2xx, object-shaped) response whose
`news` array holds article objects, an element missing one of the six
required fields, or carrying a malformed url or timestamp value, makes the
Response Mapper fail with a validation error naming a missing or offending
declared field of some element; when every element is well-formed the
mapping — a pure function — is total, producing one article per element. -/
theorem response_mapper_spec (st : String) (items : List Json)
    (hobjs : ∀ j ∈ items, ∃ bf, j = Json.obj bf) :
    (∀ af f, Json.obj af ∈ items → f ∈ requiredArticleFields → jsonLookup af f = none →
      ∃ e, NewsResponse.fromJson
          (Json.obj [("status", Json.str st), ("news", Json.arr items)]) = .error e ∧
        ∃ bf, Json.obj bf ∈ items ∧ e.field ∈ articleFields ∧
          articleFieldOk bf e.field = false) ∧
    (∀ af u, Json.obj af ∈ items → jsonLookup af "url" = some (Json.str u) →
      isWellFormedUrl u = false →
      ∃ e, NewsResponse.fromJson
          (Json.obj [("status", Json.str st), ("news", Json.arr items)]) = .error e ∧
        ∃ bf, Json.obj bf ∈ items ∧ e.field ∈ articleFields ∧
          articleFieldOk bf e.field = false) ∧
    (∀ af u, Json.obj af ∈ items → jsonLookup af "published" = some (Json.str u) →
      isParseableTimestamp u = false →
      ∃ e, NewsResponse.fromJson
          (Json.obj [("status", Json.str st), ("news", Json.arr items)]) = .error e ∧
        ∃ bf, Json.obj bf ∈ items ∧ e.field ∈ articleFields ∧
          articleFieldOk bf e.field = false) ∧
    ((∀ j ∈ items, ∃ af, j = Json.obj af ∧ articleWellFormed af = true) →
      ∃ resp, NewsResponse.fromJson
          (Json.obj [("status", Json.str st), ("news", Json.arr items)]) = .ok resp ∧
        resp.status = st ∧ resp.news.length = items.length) := by
  refine ⟨?_, ?_, ?_, ?_⟩
  · intro af f hmem hf hnone
    refine mapper_fails_on_bad_element st items hobjs af hmem ?_
    fin_cases hf
    · exact all_eq_false_of_mem (by decide)
        (show articleFieldOk af "id" = false by
          simp [articleFieldOk, getRequiredStr, hnone, Except.isOk, Except.toBool])
    · exact all_eq_false_of_mem (by decide)
        (show articleFieldOk af "title" = false by
          simp [articleFieldOk, getRequiredStr, hnone, Except.isOk, Except.toBool])
    · exact all_eq_false_of_mem (by decide)
        (show articleFieldOk af "description" = false by
          simp [articleFieldOk, getRequiredStr, hnone, Except.isOk, Except.toBool])
    · exact all_eq_false_of_mem (by decide)
        (show articleFieldOk af "url" = false by
          simp [articleFieldOk, getUrlField, hnone, Except.isOk, Except.toBool])
    · exact all_eq_false_of_mem (by decide)
        (show articleFieldOk af "language" = false by
          simp [articleFieldOk, getRequiredStr, hnone, Except.isOk, Except.toBool])
    · exact all_eq_false_of_mem (by decide)
        (show articleFieldOk af "published" = false by
          simp [articleFieldOk, getPublishedField, hnone, Except.isOk, Except.toBool])
  · intro af u hmem hurl hbadurl
    refine mapper_fails_on_bad_element st items hobjs af hmem ?_
    exact all_eq_false_of_mem (by decide)
      (show articleFieldOk af "url" = false by
        simp [articleFieldOk, getUrlField, hurl, hbadurl, Except.isOk, Except.toBool])
  · intro af u hmem hpub hbadpub
    refine mapper_fails_on_bad_element st items hobjs af hmem ?_
    exact all_eq_false_of_mem (by decide)
      (show articleFieldOk af "published" = false by
        simp [articleFieldOk, getPublishedField, hpub, hbadpub,
          Except.isOk, Except.toBool])
  · intro hall
    have hok : ∀ j ∈ items, (NewsArticle.fromJson j).isOk = true := by
      intro j hj
      obtain ⟨af, rfl, hwf⟩ := hall j hj
      rw [(articleFromJson_spec af).1]
      exact hwf
    obtain ⟨l, hl, hlen⟩ := mapArticles_ok_of_all items hok
    refine ⟨⟨st, l⟩, ?_, rfl, hlen⟩
    rw [newsResponse_fromJson_shape, hl]

/-- Witness for C4 at a concrete input: a response whose single news element
lacks the required `title` field makes the mapper fail, with the error
naming a missing or offending declared field of that element. -/
theorem response_mapper_spec_witness :
    ∃ e, NewsResponse.fromJson
        (Json.obj [("status", Json.str "ok"),
          ("news", Json.arr [Json.obj [("id", Json.str "1")]])]) = .error e ∧
      ∃ bf, Json.obj bf ∈ [Json.obj [("id", Json.str "1")]] ∧
        e.field ∈ articleFields ∧ articleFieldOk bf e.field = false := by
  have hobjs : ∀ j ∈ [Json.obj [("id", Json.str "1")]], ∃ bf, j = Json.obj bf := by
    intro j hj
    rw [List.mem_singleton] at hj
    exact ⟨_, hj⟩
  exact (response_mapper_spec "ok" [Json.obj [("id", Json.str "1")]] hobjs).1
    [("id", Json.str "1")] "title" (List.mem_cons_self _ _) (by decide) rfl

end CurrentsNewsClient
